import Mathlib

/-!
Verification of `src/upload_model.py` (`upload_model_to_hf`).

The script is linear glue code: check a credential, check the checkpoint
path, load the checkpoint, synthesize a configuration document, write
three artifact files into a scratch directory, clone the remote
repository, copy the artifacts in, stage/commit/push, and report a
boolean outcome.  We embed it as a pure function over a `World` that
fixes the environment (token, path existence, checkpoint load result,
exit status of each git subprocess) and returns the routine's outcome
together with the ordered trace of its observable effects.
-/

namespace UploadModel

/-- Python values as they occur in a checkpoint: tensors (identified by
their shape), JSON-style scalars, lists and string-keyed dictionaries.
Dictionaries are ordered association lists, mirroring Python's
insertion-ordered `dict`. -/
inductive PyValue where
  | tensor (shape : List Nat)
  | str (s : String)
  | num (n : Int)
  | list (xs : List PyValue)
  | dict (entries : List (String × PyValue))

mutual

/-- Decidable equality on `PyValue` (the nested inductive prevents
`deriving`). -/
def PyValue.decEq : (a b : PyValue) → Decidable (a = b)
  | .tensor s, .tensor t =>
    if h : s = t then isTrue (by rw [h])
    else isFalse (fun hh => h (by cases hh; rfl))
  | .str a, .str b =>
    if h : a = b then isTrue (by rw [h])
    else isFalse (fun hh => h (by cases hh; rfl))
  | .num a, .num b =>
    if h : a = b then isTrue (by rw [h])
    else isFalse (fun hh => h (by cases hh; rfl))
  | .list xs, .list ys =>
    match PyValue.decEqList xs ys with
    | isTrue h => isTrue (by rw [h])
    | isFalse h => isFalse (fun hh => h (by cases hh; rfl))
  | .dict xs, .dict ys =>
    match PyValue.decEqEntries xs ys with
    | isTrue h => isTrue (by rw [h])
    | isFalse h => isFalse (fun hh => h (by cases hh; rfl))
  | .tensor _, .str _ => isFalse (fun h => by cases h)
  | .tensor _, .num _ => isFalse (fun h => by cases h)
  | .tensor _, .list _ => isFalse (fun h => by cases h)
  | .tensor _, .dict _ => isFalse (fun h => by cases h)
  | .str _, .tensor _ => isFalse (fun h => by cases h)
  | .str _, .num _ => isFalse (fun h => by cases h)
  | .str _, .list _ => isFalse (fun h => by cases h)
  | .str _, .dict _ => isFalse (fun h => by cases h)
  | .num _, .tensor _ => isFalse (fun h => by cases h)
  | .num _, .str _ => isFalse (fun h => by cases h)
  | .num _, .list _ => isFalse (fun h => by cases h)
  | .num _, .dict _ => isFalse (fun h => by cases h)
  | .list _, .tensor _ => isFalse (fun h => by cases h)
  | .list _, .str _ => isFalse (fun h => by cases h)
  | .list _, .num _ => isFalse (fun h => by cases h)
  | .list _, .dict _ => isFalse (fun h => by cases h)
  | .dict _, .tensor _ => isFalse (fun h => by cases h)
  | .dict _, .str _ => isFalse (fun h => by cases h)
  | .dict _, .num _ => isFalse (fun h => by cases h)
  | .dict _, .list _ => isFalse (fun h => by cases h)

/-- Decidable equality on lists of `PyValue`. -/
def PyValue.decEqList : (a b : List PyValue) → Decidable (a = b)
  | [], [] => isTrue rfl
  | [], _ :: _ => isFalse (fun h => by cases h)
  | _ :: _, [] => isFalse (fun h => by cases h)
  | x :: xs, y :: ys =>
    match PyValue.decEq x y, PyValue.decEqList xs ys with
    | isTrue h1, isTrue h2 => isTrue (by rw [h1, h2])
    | isFalse h1, _ => isFalse (fun hh => h1 (by cases hh; rfl))
    | _, isFalse h2 => isFalse (fun hh => h2 (by cases hh; rfl))

/-- Decidable equality on dictionary entry lists. -/
def PyValue.decEqEntries : (a b : List (String × PyValue)) → Decidable (a = b)
  | [], [] => isTrue rfl
  | [], _ :: _ => isFalse (fun h => by cases h)
  | _ :: _, [] => isFalse (fun h => by cases h)
  | (k1, v1) :: xs, (k2, v2) :: ys =>
    if h0 : k1 = k2 then
      match PyValue.decEq v1 v2, PyValue.decEqEntries xs ys with
      | isTrue h1, isTrue h2 => isTrue (by rw [h0, h1, h2])
      | isFalse h1, _ => isFalse (fun hh => h1 (by cases hh; rfl))
      | _, isFalse h2 => isFalse (fun hh => h2 (by cases hh; rfl))
    else isFalse (fun hh => h0 (by cases hh; rfl))

end

instance : DecidableEq PyValue := PyValue.decEq

/-- Embeds `torch.Tensor.numel()`: the number of elements, the product of the
shape's dimensions (1 for a zero-dimensional tensor). -/
def numel (shape : List Nat) : Nat := shape.foldl (· * ·) 1

/-- Keys of an association-list dictionary, in order. -/
def keysOf {α : Type} (d : List (String × α)) : List String := d.map Prod.fst

/-- Python `d[k]` / `d.get(k)`: first binding of `k`. -/
def lookupD {α : Type} (d : List (String × α)) (k : String) : Option α :=
  List.lookup k d

/-- Python `k in d`. -/
def hasKey {α : Type} (d : List (String × α)) (k : String) : Bool :=
  d.any (fun p => p.1 == k)

/-- Python `d[k] = v` on an insertion-ordered dict: an existing key is
updated in place, a new key is appended. -/
def dictInsert {α : Type} (d : List (String × α)) (k : String) (v : α) :
    List (String × α) :=
  if hasKey d k then d.map (fun p => if p.1 == k then (k, v) else p)
  else d ++ [(k, v)]

/-- Python `{**a, **b}`: start from `a` and insert `b`'s bindings in
order, later bindings winning on collision. -/
def dictMerge {α : Type} (a b : List (String × α)) : List (String × α) :=
  b.foldl (fun acc p => dictInsert acc p.1 p.2) a

/-- Evaluation of `p.numel()`: succeeds only on a tensor (`AttributeError` otherwise). -/
def tensorNumel : PyValue → Option Nat
  | .tensor shape => some (numel shape)
  | _ => none

/-- Sum of `p.numel()` over the values of a state-dict association list;
`none` if any value is not a tensor. -/
def sumNumelsList : List (String × PyValue) → Option Nat
  | [] => some 0
  | p :: rest =>
    match tensorNumel p.2, sumNumelsList rest with
    | some n, some m => some (n + m)
    | _, _ => none

/-- Embeds `sum(p.numel() for p in model_state.values())` (line 73): requires
`model_state` to be a dict of tensors, `none` (a raised exception)
otherwise. -/
def sumNumels : PyValue → Option Nat
  | .dict d => sumNumelsList d
  | _ => none

/-- The README generated at lines 67-81: the interpolated data it
carries (parameter count, configuration dump, repository name). -/
structure Readme where
  parameters : Nat
  config : List (String × PyValue)
  repo : String
deriving DecidableEq

/-- Content of a file in the scratch directory or the cloned repo. -/
inductive FileContent where
  | config (d : List (String × PyValue))
  | weights (v : PyValue)
  | readme (r : Readme)
  | raw (s : String)
deriving DecidableEq

/-- A directory entry, as `os.listdir` + `os.path.isfile` see it. -/
inductive Entry where
  | file (c : FileContent)
  | dir
deriving DecidableEq

/-- Observable effects of the routine, in program order. -/
inductive Effect where
  | print (msg : String)
  | mkTempDir
  | rmTempDir
  | writeConfig (d : List (String × PyValue))
  | saveWeights (v : PyValue)
  | writeReadme (r : Readme)
  | gitClone (url : String)
  | copy (name : String) (c : FileContent)
  | gitAdd
  | gitCommit (msg : String)
  | gitPush (files : List (String × FileContent))
deriving DecidableEq

/-- Result of the routine: a returned boolean, or an uncaught Python
exception escaping the function. -/
inductive Outcome where
  | ret (b : Bool)
  | crash (msg : String)
deriving DecidableEq

/-- The environment a single invocation runs against: the credential,
whether the checkpoint path exists, what `torch.load` yields, the exit
status (with error text) of each git subprocess, and the files already
present in the cloned repository. -/
structure World where
  hf_token : Option String
  pathExists : Bool
  loadResult : Except String (List (String × PyValue))
  cloneResult : Except String Unit
  addResult : Except String Unit
  commitResult : Except String Unit
  pushResult : Except String Unit
  repoFiles : List (String × FileContent)

/-- Python truthiness of `os.getenv('HF_TOKEN')`: falsy when unset or
the empty string (line 24, `if not hf_token`). -/
def tokenFalsy : Option String → Bool
  | none => true
  | some s => s == ""

/-- The fixed part of the model config (lines 52-54). -/
def fixedConfig : List (String × PyValue) :=
  [("architectures", .list [.str "HybridModel"]),
   ("model_type", .str "hybrid_llm")]

/-- Lines 41-46: wrapper detection.  If `'model_state_dict'` is a key
of the checkpoint, the state is its value and the config is
`checkpoint.get('config', {})`; otherwise the whole checkpoint is the
state and the config is empty. -/
def extractPair (checkpoint : List (String × PyValue)) : PyValue × PyValue :=
  if hasKey checkpoint "model_state_dict" then
    ((lookupD checkpoint "model_state_dict").getD (.dict []),
     (lookupD checkpoint "config").getD (.dict []))
  else
    (.dict checkpoint, .dict [])

/-- Embeds `Path(model_path).name`: the final path component. -/
def pathName (s : String) : String := (s.splitOn "/").getLastD s

/-- Python `model_name or model_path.name` (line 107): `model_name`
unless it is `None` or empty. -/
def orName : Option String → String → String
  | none, d => d
  | some s, d => if s == "" then d else s

/-- The scratch directory's listing at the copy step (lines 97-101):
the three generated files plus the `repo` clone directory. -/
def tempListing (mc : List (String × PyValue)) (ms : PyValue) (rm : Readme) :
    List (String × Entry) :=
  [("config.json", .file (.config mc)),
   ("pytorch_model.bin", .file (.weights ms)),
   ("README.md", .file (.readme rm)),
   ("repo", .dir)]

/-- Lines 97-102: for each listing entry whose name is not `"repo"` and
which is a regular file, copy it into the cloned repository
(overwriting same-named files).  Returns the copy effects and the
repository contents afterwards. -/
def copyLoop : List (String × Entry) → List (String × FileContent) →
    List Effect × List (String × FileContent)
  | [], repo => ([], repo)
  | (name, ent) :: rest, repo =>
    if name == "repo" then copyLoop rest repo
    else
      match ent with
      | .file c =>
        let (es, r) := copyLoop rest (dictInsert repo name c)
        (.copy name c :: es, r)
      | .dir => copyLoop rest repo

/-- The failure print of the `except subprocess.CalledProcessError`
handler (line 115): the message carries the exception's text `e`. -/
def gitFailPrint (e : String) : Effect :=
  .print ("❌ Git operation failed: " ++ e)

/-- The body of the `with tempfile.TemporaryDirectory()` block
(lines 36-116), excluding the scratch-directory bracketing itself. -/
def withTempBlock (w : World) (model_path repo_name : String)
    (model_name : Option String) : Outcome × List Effect :=
  let pre := [Effect.print ("🚀 Preparing upload to: " ++ repo_name)]
  match w.loadResult with
  | .error e => (.ret false, pre ++ [.print ("❌ Failed to load model: " ++ e)])
  | .ok checkpoint =>
    let model_state := (extractPair checkpoint).1
    match (extractPair checkpoint).2 with
    | .dict cfg =>
      let model_config := dictMerge fixedConfig cfg
      let es1 := pre ++ [Effect.writeConfig model_config,
                         Effect.saveWeights model_state]
      match sumNumels model_state with
      | none => (.crash "AttributeError: values", es1)
      | some n =>
        let rm : Readme := ⟨n, cfg, repo_name⟩
        let es2 := es1 ++ [Effect.writeReadme rm]
        let url := "https://huggingface.co/" ++ repo_name
        match w.cloneResult with
        | .error e => (.ret false, es2 ++ [.gitClone url, gitFailPrint e])
        | .ok _ =>
          let (copyEs, repo2) :=
            copyLoop (tempListing model_config model_state rm) w.repoFiles
          let es3 := es2 ++ [Effect.gitClone url] ++ copyEs
          match w.addResult with
          | .error e => (.ret false, es3 ++ [.gitAdd, gitFailPrint e])
          | .ok _ =>
            let cm := "Add model: " ++ orName model_name (pathName model_path)
            match w.commitResult with
            | .error e =>
              (.ret false, es3 ++ [.gitAdd, .gitCommit cm, gitFailPrint e])
            | .ok _ =>
              match w.pushResult with
              | .error e =>
                (.ret false, es3 ++ [.gitAdd, .gitCommit cm, .gitPush repo2,
                                     gitFailPrint e])
              | .ok _ =>
                (.ret true, es3 ++ [.gitAdd, .gitCommit cm, .gitPush repo2,
                  .print ("✅ Model uploaded successfully to: " ++ url)])
    | _ => (.crash "TypeError: argument after ** must be a mapping", pre)

/-- Embeds `upload_model_to_hf(model_path, repo_name, model_name)`:
credential check (lines 22-27), path check (lines 29-32), then the
scratch-directory block, whose cleanup runs on every exit. -/
def upload_model_to_hf (w : World) (model_path repo_name : String)
    (model_name : Option String) : Outcome × List Effect :=
  if tokenFalsy w.hf_token then
    (.ret false,
     [.print "❌ HF_TOKEN not found in .env file",
      .print "   Create .env file with: HF_TOKEN=your_token_here"])
  else if !w.pathExists then
    (.ret false, [.print ("❌ Model file not found: " ++ model_path)])
  else
    let r := withTempBlock w model_path repo_name model_name
    (r.1, .mkTempDir :: (r.2 ++ [.rmTempDir]))

/-- Whether a subprocess invocation exited with status zero. -/
def gitOk : Except String Unit → Bool
  | .ok _ => true
  | .error _ => false

/-- All four git subprocesses exit with status zero. -/
def allGitOk (w : World) : Bool :=
  gitOk w.cloneResult && gitOk w.addResult &&
  gitOk w.commitResult && gitOk w.pushResult

/-- Error text of the first git subprocess (in program order:
clone, add, commit, push) that exits with a non-zero status. -/
def firstGitError (w : World) : Option String :=
  match w.cloneResult with
  | .error e => some e
  | .ok _ =>
    match w.addResult with
    | .error e => some e
    | .ok _ =>
      match w.commitResult with
      | .error e => some e
      | .ok _ =>
        match w.pushResult with
        | .error e => some e
        | .ok _ => none

/-- The run gets past artifact generation to the git phase: the
checkpoint loads, the extracted config is a mapping, and the extracted
state is a dict of tensors. -/
def reachesGit (w : World) : Bool :=
  match w.loadResult with
  | .error _ => false
  | .ok checkpoint =>
    match (extractPair checkpoint).2 with
    | .dict _ => (sumNumels (extractPair checkpoint).1).isSome
    | _ => false

/-- File-system operations among the effects. -/
def Effect.isFileOp : Effect → Bool
  | .mkTempDir | .rmTempDir | .writeConfig _ | .saveWeights _
  | .writeReadme _ | .copy _ _ => true
  | _ => false

/-- Network operations among the effects. -/
def Effect.isNetworkOp : Effect → Bool
  | .gitClone _ | .gitPush _ => true
  | _ => false

/-- Version-control subprocess invocations among the effects. -/
def Effect.isGitSubprocess : Effect → Bool
  | .gitClone _ | .gitAdd | .gitCommit _ | .gitPush _ => true
  | _ => false

/-! ### Association-list dictionary lemmas -/

theorem lookupD_nil {α : Type} (k : String) :
    lookupD ([] : List (String × α)) k = none := rfl

theorem lookupD_cons {α : Type} (a k : String) (v : α)
    (rest : List (String × α)) :
    lookupD ((a, v) :: rest) k = if k = a then some v else lookupD rest k := by
  simp only [lookupD, List.lookup]
  cases h : k == a <;> simp_all

theorem hasKey_iff_mem_keysOf {α : Type} (d : List (String × α)) (k : String) :
    hasKey d k = true ↔ k ∈ keysOf d := by
  unfold hasKey keysOf
  rw [List.any_eq_true]
  constructor
  · rintro ⟨p, hp, he⟩
    exact List.mem_map.2 ⟨p, hp, beq_iff_eq.1 he⟩
  · intro h
    obtain ⟨p, hp, he⟩ := List.mem_map.1 h
    exact ⟨p, hp, beq_iff_eq.2 he⟩

theorem hasKey_cons {α : Type} (a k : String) (v : α)
    (rest : List (String × α)) :
    hasKey ((a, v) :: rest) k = (a == k || hasKey rest k) := by
  simp [hasKey]

theorem lookupD_eq_none_of_hasKey_false {α : Type} (d : List (String × α))
    (k : String) (h : hasKey d k = false) : lookupD d k = none := by
  induction d with
  | nil => rfl
  | cons p rest ih =>
    obtain ⟨a, v⟩ := p
    rw [hasKey_cons, Bool.or_eq_false_iff] at h
    rw [lookupD_cons, if_neg (Ne.symm (by simpa using h.1))]
    exact ih h.2

theorem hasKey_of_lookupD_some {α : Type} {d : List (String × α)}
    {k : String} {v : α} (h : lookupD d k = some v) : hasKey d k = true := by
  by_contra hh
  rw [lookupD_eq_none_of_hasKey_false d k (by simpa using hh)] at h
  cases h

theorem lookupD_map_update_self {α : Type} (d : List (String × α))
    (k : String) (v : α) (hk : hasKey d k = true) :
    lookupD (d.map (fun p => if p.1 == k then (k, v) else p)) k = some v := by
  induction d with
  | nil => simp [hasKey] at hk
  | cons p rest ih =>
    obtain ⟨a, w⟩ := p
    rw [hasKey_cons] at hk
    by_cases ha : a = k
    · subst ha
      simp [lookupD_cons]
    · have hr : hasKey rest k = true := by simpa [ha] using hk
      simp only [List.map_cons]
      rw [if_neg (by simpa using ha), lookupD_cons, if_neg (Ne.symm ha)]
      exact ih hr

theorem lookupD_append_single_self {α : Type} (d : List (String × α))
    (k : String) (v : α) (hk : hasKey d k = false) :
    lookupD (d ++ [(k, v)]) k = some v := by
  induction d with
  | nil => simp [lookupD_cons]
  | cons p rest ih =>
    obtain ⟨a, w⟩ := p
    rw [hasKey_cons, Bool.or_eq_false_iff] at hk
    rw [List.cons_append, lookupD_cons, if_neg (Ne.symm (by simpa using hk.1))]
    exact ih hk.2

theorem lookupD_map_update_ne {α : Type} (d : List (String × α))
    (k : String) (v : α) (m : String) (h : m ≠ k) :
    lookupD (d.map (fun p => if p.1 == k then (k, v) else p)) m =
      lookupD d m := by
  induction d with
  | nil => rfl
  | cons p rest ih =>
    obtain ⟨a, w⟩ := p
    by_cases ha : a = k
    · subst ha
      simp only [List.map_cons, beq_self_eq_true, if_true]
      rw [lookupD_cons, lookupD_cons, if_neg h, if_neg h]
      exact ih
    · simp only [List.map_cons]
      rw [if_neg (by simpa using ha), lookupD_cons, lookupD_cons]
      by_cases hm : m = a
      · simp [hm]
      · rw [if_neg hm, if_neg hm]
        exact ih

theorem lookupD_append_single_ne {α : Type} (d : List (String × α))
    (k : String) (v : α) (m : String) (h : m ≠ k) :
    lookupD (d ++ [(k, v)]) m = lookupD d m := by
  induction d with
  | nil => simp [lookupD_cons, h, lookupD]
  | cons p rest ih =>
    obtain ⟨a, w⟩ := p
    rw [List.cons_append, lookupD_cons, lookupD_cons]
    by_cases hm : m = a
    · simp [hm]
    · rw [if_neg hm, if_neg hm]
      exact ih

theorem lookupD_dictInsert_self {α : Type} (d : List (String × α))
    (k : String) (v : α) : lookupD (dictInsert d k v) k = some v := by
  unfold dictInsert
  split <;> rename_i hk
  · exact lookupD_map_update_self d k v hk
  · exact lookupD_append_single_self d k v (by simpa using hk)

theorem lookupD_dictInsert_ne {α : Type} (d : List (String × α))
    (k : String) (v : α) (m : String) (h : m ≠ k) :
    lookupD (dictInsert d k v) m = lookupD d m := by
  unfold dictInsert
  split <;> rename_i hk
  · exact lookupD_map_update_ne d k v m h
  · exact lookupD_append_single_ne d k v m h

theorem keysOf_dictInsert {α : Type} (d : List (String × α))
    (k : String) (v : α) :
    keysOf (dictInsert d k v) =
      if hasKey d k then keysOf d else keysOf d ++ [k] := by
  unfold dictInsert
  split <;> rename_i hk
  · unfold keysOf
    rw [List.map_map]
    apply List.map_congr_left
    intro p _
    by_cases ha : p.1 = k
    · simp [Function.comp, ha]
    · simp [Function.comp, ha]
  · simp [keysOf]

theorem mem_keysOf_dictInsert {α : Type} (d : List (String × α))
    (k : String) (v : α) (m : String) :
    m ∈ keysOf (dictInsert d k v) ↔ m ∈ keysOf d ∨ m = k := by
  rw [keysOf_dictInsert]
  split <;> rename_i hk
  · constructor
    · exact Or.inl
    · rintro (h | rfl)
      · exact h
      · exact (hasKey_iff_mem_keysOf d m).1 hk
  · simp

theorem dictMerge_nil {α : Type} (a : List (String × α)) :
    dictMerge a [] = a := rfl

theorem dictMerge_cons {α : Type} (a : List (String × α)) (p : String × α)
    (rest : List (String × α)) :
    dictMerge a (p :: rest) = dictMerge (dictInsert a p.1 p.2) rest := rfl

theorem mem_keysOf_dictMerge {α : Type} (a b : List (String × α))
    (m : String) :
    m ∈ keysOf (dictMerge a b) ↔ m ∈ keysOf a ∨ m ∈ keysOf b := by
  induction b generalizing a with
  | nil => simp [dictMerge_nil, keysOf]
  | cons p rest ih =>
    rw [dictMerge_cons, ih, mem_keysOf_dictInsert]
    constructor
    · rintro ((h | rfl) | h)
      · exact Or.inl h
      · exact Or.inr (by simp [keysOf])
      · exact Or.inr (by simp [keysOf]; right; simpa [keysOf] using h)
    · rintro (h | h)
      · exact Or.inl (Or.inl h)
      · rcases (by simpa [keysOf] using h : m = p.1 ∨ m ∈ keysOf rest) with h | h
        · exact Or.inl (Or.inr h)
        · exact Or.inr h

theorem lookupD_dictMerge_not_mem {α : Type} (a b : List (String × α))
    (k : String) (h : k ∉ keysOf b) :
    lookupD (dictMerge a b) k = lookupD a k := by
  induction b generalizing a with
  | nil => rfl
  | cons p rest ih =>
    simp only [keysOf, List.map_cons, List.mem_cons] at h
    push_neg at h
    rw [dictMerge_cons, ih _ (by simpa [keysOf] using h.2),
      lookupD_dictInsert_ne _ _ _ _ h.1]

theorem lookupD_dictMerge_mem {α : Type} (a b : List (String × α))
    (k : String) (hn : (keysOf b).Nodup) (h : k ∈ keysOf b) :
    lookupD (dictMerge a b) k = lookupD b k := by
  induction b generalizing a with
  | nil => cases h
  | cons p rest ih =>
    obtain ⟨a0, v0⟩ := p
    simp only [keysOf, List.map_cons, List.nodup_cons] at hn
    rw [dictMerge_cons, lookupD_cons]
    rcases (by simpa [keysOf] using h : k = a0 ∨ k ∈ keysOf rest) with rfl | hk
    · rw [if_pos rfl, lookupD_dictMerge_not_mem _ _ _ (by simpa [keysOf] using hn.1),
        lookupD_dictInsert_self]
    · have hne : k ≠ a0 := fun hkk => hn.1 (hkk ▸ (by simpa [keysOf] using hk))
      rw [if_neg hne]
      exact ih _ hn.2 hk

/-- Connects the spec-side element-count sum to `sumNumelsList`: on a
state dict whose values are tensors with the given shapes, the Python
generator expression yields exactly the sum of the element counts. -/
theorem sumNumelsList_tensors (sd : List (String × List Nat)) :
    sumNumelsList (sd.map (fun p => (p.1, PyValue.tensor p.2))) =
      some ((sd.map (fun p => numel p.2)).sum) := by
  induction sd with
  | nil => rfl
  | cons p rest ih => simp [sumNumelsList, tensorNumel, ih]

/-! ### Routine-level helper lemmas -/

theorem writeConfig_mem (w : World) (mp rn : String) (mn : Option String)
    (checkpoint cfg : List (String × PyValue))
    (htok : tokenFalsy w.hf_token = false)
    (hex : w.pathExists = true)
    (hload : w.loadResult = .ok checkpoint)
    (hcfg : (extractPair checkpoint).2 = .dict cfg) :
    Effect.writeConfig (dictMerge fixedConfig cfg) ∈
      (upload_model_to_hf w mp rn mn).2 := by
  simp only [upload_model_to_hf, htok, Bool.false_eq_true, if_false, hex,
    Bool.not_true, withTempBlock, hload, hcfg]
  cases hsum : sumNumels (extractPair checkpoint).1 <;>
    cases hc : w.cloneResult <;> cases ha : w.addResult <;>
    cases hcm : w.commitResult <;> cases hp : w.pushResult <;>
    simp

theorem saveWeights_mem (w : World) (mp rn : String) (mn : Option String)
    (checkpoint cfg : List (String × PyValue))
    (htok : tokenFalsy w.hf_token = false)
    (hex : w.pathExists = true)
    (hload : w.loadResult = .ok checkpoint)
    (hcfg : (extractPair checkpoint).2 = .dict cfg) :
    Effect.saveWeights (extractPair checkpoint).1 ∈
      (upload_model_to_hf w mp rn mn).2 := by
  simp only [upload_model_to_hf, htok, Bool.false_eq_true, if_false, hex,
    Bool.not_true, withTempBlock, hload, hcfg]
  cases hsum : sumNumels (extractPair checkpoint).1 <;>
    cases hc : w.cloneResult <;> cases ha : w.addResult <;>
    cases hcm : w.commitResult <;> cases hp : w.pushResult <;>
    simp

theorem writeReadme_mem (w : World) (mp rn : String) (mn : Option String)
    (checkpoint cfg : List (String × PyValue)) (n : Nat)
    (htok : tokenFalsy w.hf_token = false)
    (hex : w.pathExists = true)
    (hload : w.loadResult = .ok checkpoint)
    (hcfg : (extractPair checkpoint).2 = .dict cfg)
    (hsum : sumNumels (extractPair checkpoint).1 = some n) :
    Effect.writeReadme ⟨n, cfg, rn⟩ ∈ (upload_model_to_hf w mp rn mn).2 := by
  simp only [upload_model_to_hf, htok, Bool.false_eq_true, if_false, hex,
    Bool.not_true, withTempBlock, hload, hcfg, hsum]
  cases hc : w.cloneResult <;> cases ha : w.addResult <;>
    cases hcm : w.commitResult <;> cases hp : w.pushResult <;>
    simp

theorem trace_getLast_rmTempDir (w : World) (mp rn : String)
    (mn : Option String)
    (htok : tokenFalsy w.hf_token = false)
    (hex : w.pathExists = true) :
    (upload_model_to_hf w mp rn mn).2.getLast? = some .rmTempDir := by
  simp only [upload_model_to_hf, htok, Bool.false_eq_true, if_false, hex,
    Bool.not_true]
  rw [← List.cons_append, List.getLast?_concat]

theorem reachesGit_elim (w : World) (h : reachesGit w = true) :
    ∃ checkpoint cfg n, w.loadResult = .ok checkpoint ∧
      (extractPair checkpoint).2 = .dict cfg ∧
      sumNumels (extractPair checkpoint).1 = some n := by
  unfold reachesGit at h
  cases hload : w.loadResult with
  | error e => rw [hload] at h; simp at h
  | ok checkpoint =>
    rw [hload] at h
    simp only [] at h
    cases hcfg : (extractPair checkpoint).2 <;> rw [hcfg] at h <;>
      simp only [Bool.false_eq_true] at h
    rename_i cfg
    rw [Option.isSome_iff_exists] at h
    obtain ⟨n, hn⟩ := h
    exact ⟨checkpoint, cfg, n, rfl, hcfg, hn⟩

theorem gitFail_ret_false_print (w : World) (mp rn : String)
    (mn : Option String) (e : String)
    (htok : tokenFalsy w.hf_token = false)
    (hex : w.pathExists = true)
    (hreach : reachesGit w = true)
    (hfail : firstGitError w = some e) :
    (upload_model_to_hf w mp rn mn).1 = .ret false
    ∧ gitFailPrint e ∈ (upload_model_to_hf w mp rn mn).2 := by
  obtain ⟨checkpoint, cfg, n, hload, hcfg, hsum⟩ := reachesGit_elim w hreach
  unfold firstGitError at hfail
  simp only [upload_model_to_hf, htok, Bool.false_eq_true, if_false, hex,
    Bool.not_true, withTempBlock, hload, hcfg, hsum]
  cases hc : w.cloneResult with
  | error e0 =>
    rw [hc] at hfail
    simp only [Option.some.injEq] at hfail
    subst hfail
    simp
  | ok u =>
    rw [hc] at hfail
    simp only [] at hfail
    cases ha : w.addResult with
    | error e0 =>
      rw [ha] at hfail
      simp only [Option.some.injEq] at hfail
      subst hfail
      simp
    | ok u2 =>
      rw [ha] at hfail
      simp only [] at hfail
      cases hcm : w.commitResult with
      | error e0 =>
        rw [hcm] at hfail
        simp only [Option.some.injEq] at hfail
        subst hfail
        simp
      | ok u3 =>
        rw [hcm] at hfail
        simp only [] at hfail
        cases hp : w.pushResult with
        | error e0 =>
          rw [hp] at hfail
          simp only [Option.some.injEq] at hfail
          subst hfail
          simp
        | ok u4 =>
          rw [hp] at hfail
          simp at hfail

theorem firstGitError_isSome_of_not_allGitOk (w : World)
    (h : allGitOk w = false) : (firstGitError w).isSome = true := by
  unfold allGitOk at h
  unfold firstGitError
  cases hc : w.cloneResult <;> cases ha : w.addResult <;>
    cases hcm : w.commitResult <;> cases hp : w.pushResult <;>
    simp_all [gitOk]

theorem ret_true_iff (w : World) (mp rn : String) (mn : Option String) :
    (upload_model_to_hf w mp rn mn).1 = .ret true ↔
      (tokenFalsy w.hf_token = false ∧ w.pathExists = true ∧
       reachesGit w = true ∧ allGitOk w = true) := by
  unfold upload_model_to_hf withTempBlock reachesGit allGitOk
  cases htok : tokenFalsy w.hf_token <;> cases hex : w.pathExists <;>
    try simp
  cases hload : w.loadResult with
  | error e0 => simp
  | ok checkpoint =>
    cases hcfg : (extractPair checkpoint).2 <;>
      cases hsum : sumNumels (extractPair checkpoint).1 <;>
      cases hc : w.cloneResult <;> cases ha : w.addResult <;>
      cases hcm : w.commitResult <;> cases hp : w.pushResult <;>
      simp [gitOk, hcfg, hsum, hc, ha, hcm, hp]

theorem success_print_mem (w : World) (mp rn : String) (mn : Option String)
    (checkpoint cfg : List (String × PyValue)) (n : Nat)
    (htok : tokenFalsy w.hf_token = false)
    (hex : w.pathExists = true)
    (hload : w.loadResult = .ok checkpoint)
    (hcfg : (extractPair checkpoint).2 = .dict cfg)
    (hsum : sumNumels (extractPair checkpoint).1 = some n)
    (hall : allGitOk w = true) :
    Effect.print ("✅ Model uploaded successfully to: " ++
        ("https://huggingface.co/" ++ rn)) ∈
      (upload_model_to_hf w mp rn mn).2 := by
  unfold allGitOk at hall
  simp only [upload_model_to_hf, htok, Bool.false_eq_true, if_false, hex,
    Bool.not_true, withTempBlock, hload, hcfg, hsum]
  cases hc : w.cloneResult <;> cases ha : w.addResult <;>
    cases hcm : w.commitResult <;> cases hp : w.pushResult <;>
    simp_all [gitOk]

/-! ### The claims -/

/-- World for the C1 counterexample: a wrapper checkpoint whose nested
configuration rebinds the fixed key `model_type`. -/
def worldC1cex : World :=
  { hf_token := some "token", pathExists := true,
    loadResult := .ok
      [("model_state_dict", .dict [("w", .tensor [2, 3])]),
       ("config", .dict [("model_type", .str "custom")])],
    cloneResult := .ok (), addResult := .ok (), commitResult := .ok (),
    pushResult := .ok (), repoFiles := [] }

/-- C1, counterexample: with a nested configuration binding
`model_type` to `"custom"`, the single configuration document the run
generates maps `model_type` to `"custom"`, not to the fixed value
`"hybrid_llm"`: the fixed architecture key IS overwritten by the
colliding nested key, contrary to the claim. -/
theorem c1_nested_key_overwrites_fixed :
    (upload_model_to_hf worldC1cex "model.pt" "user/repo" none).2.filterMap
        (fun e => match e with
          | .writeConfig d => some (lookupD d "model_type")
          | _ => none)
      = [some (.str "custom")] := by decide

/-- C1 (amended): for a wrapper checkpoint with a nested configuration
mapping `cfg` (distinct keys), every key of `cfg` appears in the
generated configuration document, and the fixed keys `architectures`
and `model_type` are still present as keys; but on a collision the
nested value wins: at every key of `cfg` the document holds `cfg`'s
value. -/
theorem c1_nested_config_merged (w : World) (mp rn : String)
    (mn : Option String) (checkpoint cfg : List (String × PyValue))
    (htok : tokenFalsy w.hf_token = false)
    (hex : w.pathExists = true)
    (hload : w.loadResult = .ok checkpoint)
    (hwrap : hasKey checkpoint "model_state_dict" = true)
    (hcfg : lookupD checkpoint "config" = some (.dict cfg))
    (hnd : (keysOf cfg).Nodup) :
    Effect.writeConfig (dictMerge fixedConfig cfg) ∈
        (upload_model_to_hf w mp rn mn).2
    ∧ (∀ k ∈ keysOf cfg, k ∈ keysOf (dictMerge fixedConfig cfg))
    ∧ "architectures" ∈ keysOf (dictMerge fixedConfig cfg)
    ∧ "model_type" ∈ keysOf (dictMerge fixedConfig cfg)
    ∧ (∀ k ∈ keysOf cfg,
        lookupD (dictMerge fixedConfig cfg) k = lookupD cfg k) := by
  have hpair : (extractPair checkpoint).2 = .dict cfg := by
    simp [extractPair, hwrap, hcfg]
  refine ⟨writeConfig_mem w mp rn mn checkpoint cfg htok hex hload hpair,
    ?_, ?_, ?_, ?_⟩
  · intro k hk
    exact (mem_keysOf_dictMerge _ _ _).2 (Or.inr hk)
  · exact (mem_keysOf_dictMerge _ _ _).2 (Or.inl (by simp [fixedConfig, keysOf]))
  · exact (mem_keysOf_dictMerge _ _ _).2 (Or.inl (by simp [fixedConfig, keysOf]))
  · intro k hk
    exact lookupD_dictMerge_mem _ _ _ hnd hk

/-- World for the C1 witness: wrapper checkpoint with a non-colliding
nested configuration key. -/
def worldC1wit : World :=
  { hf_token := some "token", pathExists := true,
    loadResult := .ok
      [("model_state_dict", .dict [("w", .tensor [2, 3])]),
       ("config", .dict [("n_layers", .num 4)])],
    cloneResult := .ok (), addResult := .ok (), commitResult := .ok (),
    pushResult := .ok (), repoFiles := [] }

/-- Witness for the amended C1 at a concrete wrapper checkpoint. -/
theorem c1_nested_config_merged_witness :
    Effect.writeConfig (dictMerge fixedConfig [("n_layers", .num 4)]) ∈
        (upload_model_to_hf worldC1wit "model.pt" "user/repo" none).2
    ∧ (∀ k ∈ keysOf [("n_layers", PyValue.num 4)],
        k ∈ keysOf (dictMerge fixedConfig [("n_layers", .num 4)]))
    ∧ "architectures" ∈ keysOf (dictMerge fixedConfig [("n_layers", .num 4)])
    ∧ "model_type" ∈ keysOf (dictMerge fixedConfig [("n_layers", .num 4)])
    ∧ (∀ k ∈ keysOf [("n_layers", PyValue.num 4)],
        lookupD (dictMerge fixedConfig [("n_layers", .num 4)]) k =
          lookupD [("n_layers", PyValue.num 4)] k) :=
  c1_nested_config_merged worldC1wit "model.pt" "user/repo" none
    [("model_state_dict", .dict [("w", .tensor [2, 3])]),
     ("config", .dict [("n_layers", .num 4)])]
    [("n_layers", .num 4)] rfl rfl rfl (by decide) rfl (by decide)

/-- C2: when the extracted weight mapping is a dict of tensors with
the given shapes, the generated README reports exactly the sum of
their element counts. -/
theorem c2_readme_reports_total_numel (w : World) (mp rn : String)
    (mn : Option String) (checkpoint cfg : List (String × PyValue))
    (sd : List (String × List Nat))
    (htok : tokenFalsy w.hf_token = false)
    (hex : w.pathExists = true)
    (hload : w.loadResult = .ok checkpoint)
    (hstate : (extractPair checkpoint).1 =
      .dict (sd.map (fun p => (p.1, PyValue.tensor p.2))))
    (hcfg : (extractPair checkpoint).2 = .dict cfg) :
    Effect.writeReadme ⟨(sd.map (fun p => numel p.2)).sum, cfg, rn⟩ ∈
      (upload_model_to_hf w mp rn mn).2 := by
  apply writeReadme_mem w mp rn mn checkpoint cfg _ htok hex hload hcfg
  rw [hstate]
  exact sumNumelsList_tensors sd

/-- World for the C2 witness: flat checkpoint with two tensors of 6
and 4 elements. -/
def worldC2wit : World :=
  { hf_token := some "token", pathExists := true,
    loadResult := .ok [("w1", .tensor [2, 3]), ("w2", .tensor [4])],
    cloneResult := .ok (), addResult := .ok (), commitResult := .ok (),
    pushResult := .ok (), repoFiles := [] }

/-- Witness for C2: the README reports 10 = 2*3 + 4 parameters. -/
theorem c2_readme_reports_total_numel_witness :
    Effect.writeReadme
        ⟨([("w1", [2, 3]), ("w2", [4])].map
            (fun p => numel p.2)).sum, [], "user/repo"⟩ ∈
      (upload_model_to_hf worldC2wit "model.pt" "user/repo" none).2 :=
  c2_readme_reports_total_numel worldC2wit "model.pt" "user/repo" none
    [("w1", .tensor [2, 3]), ("w2", .tensor [4])] []
    [("w1", [2, 3]), ("w2", [4])] rfl rfl rfl rfl rfl

/-- C3: if no HF_TOKEN credential is configured (unset or empty), the
routine returns `False` and its effect trace contains no file
operation and no network operation. -/
theorem c3_no_token_fails_without_ops (w : World) (mp rn : String)
    (mn : Option String) (htok : tokenFalsy w.hf_token = true) :
    (upload_model_to_hf w mp rn mn).1 = .ret false
    ∧ ∀ e ∈ (upload_model_to_hf w mp rn mn).2,
        e.isFileOp = false ∧ e.isNetworkOp = false := by
  simp [upload_model_to_hf, htok, Effect.isFileOp, Effect.isNetworkOp]

/-- World for the C3 witness: no token configured. -/
def worldC3 : World :=
  { hf_token := none, pathExists := true,
    loadResult := .ok [("w", .tensor [2])],
    cloneResult := .ok (), addResult := .ok (), commitResult := .ok (),
    pushResult := .ok (), repoFiles := [] }

/-- Witness for C3 at a concrete world with no token. -/
theorem c3_no_token_fails_without_ops_witness :
    (upload_model_to_hf worldC3 "model.pt" "user/repo" none).1 = .ret false
    ∧ ∀ e ∈ (upload_model_to_hf worldC3 "model.pt" "user/repo" none).2,
        e.isFileOp = false ∧ e.isNetworkOp = false :=
  c3_no_token_fails_without_ops worldC3 "model.pt" "user/repo" none rfl

/-- C4: if the checkpoint path does not exist, the routine returns
`False` and no version-control subprocess appears in the trace. -/
theorem c4_missing_checkpoint_no_git (w : World) (mp rn : String)
    (mn : Option String)
    (htok : tokenFalsy w.hf_token = false)
    (hex : w.pathExists = false) :
    (upload_model_to_hf w mp rn mn).1 = .ret false
    ∧ ∀ e ∈ (upload_model_to_hf w mp rn mn).2,
        e.isGitSubprocess = false := by
  simp [upload_model_to_hf, htok, hex, Effect.isGitSubprocess]

/-- World for the C4 witness: token present, checkpoint file missing. -/
def worldC4 : World :=
  { hf_token := some "token", pathExists := false,
    loadResult := .error "unreachable",
    cloneResult := .ok (), addResult := .ok (), commitResult := .ok (),
    pushResult := .ok (), repoFiles := [] }

/-- Witness for C4 at a concrete world with a missing checkpoint. -/
theorem c4_missing_checkpoint_no_git_witness :
    (upload_model_to_hf worldC4 "gone.pt" "user/repo" none).1 = .ret false
    ∧ ∀ e ∈ (upload_model_to_hf worldC4 "gone.pt" "user/repo" none).2,
        e.isGitSubprocess = false :=
  c4_missing_checkpoint_no_git worldC4 "gone.pt" "user/repo" none rfl rfl

/-- C5: once the scratch block is entered, a failing git subprocess
makes the routine return `False`, and on every modelled execution the
scratch directory removal is the last effect of the run. -/
theorem c5_git_failure_false_and_cleanup (w : World) (mp rn : String)
    (mn : Option String)
    (htok : tokenFalsy w.hf_token = false)
    (hex : w.pathExists = true) :
    (reachesGit w = true → allGitOk w = false →
      (upload_model_to_hf w mp rn mn).1 = .ret false)
    ∧ (upload_model_to_hf w mp rn mn).2.getLast? = some .rmTempDir := by
  constructor
  · intro hreach hfail
    obtain ⟨e, he⟩ := Option.isSome_iff_exists.1
      (firstGitError_isSome_of_not_allGitOk w hfail)
    exact (gitFail_ret_false_print w mp rn mn e htok hex hreach he).1
  · exact trace_getLast_rmTempDir w mp rn mn htok hex

/-- World for the C5 witness: everything fine except the final push. -/
def worldC5 : World :=
  { hf_token := some "token", pathExists := true,
    loadResult := .ok [("w", .tensor [3])],
    cloneResult := .ok (), addResult := .ok (), commitResult := .ok (),
    pushResult := .error "remote rejected", repoFiles := [] }

/-- Witness for C5 at a concrete world with a failing push. -/
theorem c5_git_failure_false_and_cleanup_witness :
    (upload_model_to_hf worldC5 "model.pt" "user/repo" none).1 = .ret false
    ∧ (upload_model_to_hf worldC5 "model.pt" "user/repo" none).2.getLast?
        = some .rmTempDir :=
  ⟨(c5_git_failure_false_and_cleanup worldC5 "model.pt" "user/repo" none
      rfl rfl).1 (by decide) (by decide),
   (c5_git_failure_false_and_cleanup worldC5 "model.pt" "user/repo" none
      rfl rfl).2⟩

/-- C6: when the first failing git subprocess carries error text `e`,
the failure is caught inside the routine: it returns `False` (no
exception outcome) and prints a message containing `e`. -/
theorem c6_git_failure_caught_and_logged (w : World) (mp rn : String)
    (mn : Option String) (e : String)
    (htok : tokenFalsy w.hf_token = false)
    (hex : w.pathExists = true)
    (hreach : reachesGit w = true)
    (hfail : firstGitError w = some e) :
    (upload_model_to_hf w mp rn mn).1 = .ret false
    ∧ Effect.print ("❌ Git operation failed: " ++ e) ∈
        (upload_model_to_hf w mp rn mn).2 :=
  gitFail_ret_false_print w mp rn mn e htok hex hreach hfail

/-- World for the C6 witness: the clone fails with concrete error
text. -/
def worldC6 : World :=
  { hf_token := some "token", pathExists := true,
    loadResult := .ok [("w", .tensor [3])],
    cloneResult := .error "fatal: repository not found",
    addResult := .ok (), commitResult := .ok (),
    pushResult := .ok (), repoFiles := [] }

/-- Witness for C6 at a concrete world with a failing clone. -/
theorem c6_git_failure_caught_and_logged_witness :
    (upload_model_to_hf worldC6 "model.pt" "user/repo" none).1 = .ret false
    ∧ Effect.print ("❌ Git operation failed: " ++
        "fatal: repository not found") ∈
        (upload_model_to_hf worldC6 "model.pt" "user/repo" none).2 :=
  c6_git_failure_caught_and_logged worldC6 "model.pt" "user/repo" none
    "fatal: repository not found" rfl rfl (by decide) rfl

/-- C7: for a flat checkpoint (no `model_state_dict` key), the
generated configuration document is exactly the fixed part, whose key
list is exactly the two fixed architecture keys. -/
theorem c7_flat_checkpoint_exactly_fixed_keys (w : World) (mp rn : String)
    (mn : Option String) (checkpoint : List (String × PyValue))
    (htok : tokenFalsy w.hf_token = false)
    (hex : w.pathExists = true)
    (hload : w.loadResult = .ok checkpoint)
    (hflat : hasKey checkpoint "model_state_dict" = false) :
    Effect.writeConfig fixedConfig ∈ (upload_model_to_hf w mp rn mn).2
    ∧ keysOf fixedConfig = ["architectures", "model_type"] := by
  refine ⟨?_, rfl⟩
  have hcfg : (extractPair checkpoint).2 = .dict [] := by
    simp [extractPair, hflat]
  have h := writeConfig_mem w mp rn mn checkpoint [] htok hex hload hcfg
  rwa [dictMerge_nil] at h

/-- World for the C7 witness: a flat weight mapping. -/
def worldC7 : World :=
  { hf_token := some "token", pathExists := true,
    loadResult := .ok [("w", .tensor [2, 3])],
    cloneResult := .ok (), addResult := .ok (), commitResult := .ok (),
    pushResult := .ok (), repoFiles := [] }

/-- Witness for C7 at a concrete flat checkpoint. -/
theorem c7_flat_checkpoint_exactly_fixed_keys_witness :
    Effect.writeConfig fixedConfig ∈
        (upload_model_to_hf worldC7 "model.pt" "user/repo" none).2
    ∧ keysOf fixedConfig = ["architectures", "model_type"] :=
  c7_flat_checkpoint_exactly_fixed_keys worldC7 "model.pt" "user/repo" none
    [("w", .tensor [2, 3])] rfl rfl rfl (by decide)

/-- C8: the routine returns `True` exactly when the credential and
checkpoint checks pass, artifact generation succeeds and all four git
subprocesses succeed; and on that path the trace contains the
confirmation message with the repository URL. -/
theorem c8_success_iff_and_url_print (w : World) (mp rn : String)
    (mn : Option String) :
    ((upload_model_to_hf w mp rn mn).1 = .ret true ↔
      (tokenFalsy w.hf_token = false ∧ w.pathExists = true ∧
       reachesGit w = true ∧ allGitOk w = true))
    ∧ ((upload_model_to_hf w mp rn mn).1 = .ret true →
        Effect.print ("✅ Model uploaded successfully to: " ++
          ("https://huggingface.co/" ++ rn)) ∈
          (upload_model_to_hf w mp rn mn).2) := by
  refine ⟨ret_true_iff w mp rn mn, fun h => ?_⟩
  obtain ⟨htok, hex, hreach, hall⟩ := (ret_true_iff w mp rn mn).1 h
  obtain ⟨checkpoint, cfg, n, hload, hcfg, hsum⟩ := reachesGit_elim w hreach
  exact success_print_mem w mp rn mn checkpoint cfg n htok hex hload hcfg
    hsum hall

/-- World for the C8 witness: everything succeeds. -/
def worldC8 : World :=
  { hf_token := some "token", pathExists := true,
    loadResult := .ok [("w", .tensor [2, 3])],
    cloneResult := .ok (), addResult := .ok (), commitResult := .ok (),
    pushResult := .ok (), repoFiles := [] }

/-- Witness for C8 at a concrete fully successful world. -/
theorem c8_success_iff_and_url_print_witness :
    (upload_model_to_hf worldC8 "model.pt" "user/repo" none).1 = .ret true
    ∧ Effect.print ("✅ Model uploaded successfully to: " ++
        ("https://huggingface.co/" ++ "user/repo")) ∈
        (upload_model_to_hf worldC8 "model.pt" "user/repo" none).2 :=
  ⟨(c8_success_iff_and_url_print worldC8 "model.pt" "user/repo" none).1.2
      (by decide),
   (c8_success_iff_and_url_print worldC8 "model.pt" "user/repo" none).2
      ((c8_success_iff_and_url_print worldC8 "model.pt" "user/repo"
        none).1.2 (by decide))⟩

/-- C9: any checkpoint containing the key `model_state_dict` is
treated as a wrapper: the saved weight value is exactly the value at
that key, and the merged configuration is built from the value at
`config` (the empty mapping when absent) — even if the checkpoint was
intended as a flat mapping with a parameter of that name. -/
theorem c9_wrapper_branch_extraction (w : World) (mp rn : String)
    (mn : Option String) (checkpoint : List (String × PyValue))
    (v : PyValue) (cfg : List (String × PyValue))
    (htok : tokenFalsy w.hf_token = false)
    (hex : w.pathExists = true)
    (hload : w.loadResult = .ok checkpoint)
    (hv : lookupD checkpoint "model_state_dict" = some v)
    (hcfg : (lookupD checkpoint "config").getD (.dict []) = .dict cfg) :
    Effect.saveWeights v ∈ (upload_model_to_hf w mp rn mn).2
    ∧ Effect.writeConfig (dictMerge fixedConfig cfg) ∈
        (upload_model_to_hf w mp rn mn).2 := by
  have hwrap : hasKey checkpoint "model_state_dict" = true :=
    hasKey_of_lookupD_some hv
  have h1 : (extractPair checkpoint).1 = v := by
    simp [extractPair, hwrap, hv]
  have h2 : (extractPair checkpoint).2 = .dict cfg := by
    simp [extractPair, hwrap, hcfg]
  constructor
  · have h := saveWeights_mem w mp rn mn checkpoint cfg htok hex hload h2
    rwa [h1] at h
  · exact writeConfig_mem w mp rn mn checkpoint cfg htok hex hload h2

/-- World for the C9 witness: a flat-looking checkpoint whose only
entry is a tensor named `model_state_dict`. -/
def worldC9 : World :=
  { hf_token := some "token", pathExists := true,
    loadResult := .ok [("model_state_dict", .tensor [5])],
    cloneResult := .ok (), addResult := .ok (), commitResult := .ok (),
    pushResult := .ok (), repoFiles := [] }

/-- Witness for C9: the tensor stored under `model_state_dict` is
itself uploaded as the weight mapping. -/
theorem c9_wrapper_branch_extraction_witness :
    Effect.saveWeights (.tensor [5]) ∈
        (upload_model_to_hf worldC9 "model.pt" "user/repo" none).2
    ∧ Effect.writeConfig (dictMerge fixedConfig []) ∈
        (upload_model_to_hf worldC9 "model.pt" "user/repo" none).2 :=
  c9_wrapper_branch_extraction worldC9 "model.pt" "user/repo" none
    [("model_state_dict", .tensor [5])] (.tensor [5]) []
    rfl rfl rfl rfl rfl

/-- C10: the copy step copies exactly the three generated regular
files (the `repo` directory entry is skipped), and any repository file
whose name differs from all three copied names keeps its content. -/
theorem c10_copy_step_files_and_frame (mc : List (String × PyValue))
    (ms : PyValue) (rm : Readme) (repo : List (String × FileContent))
    (name : String) (h1 : name ≠ "config.json")
    (h2 : name ≠ "pytorch_model.bin") (h3 : name ≠ "README.md") :
    (copyLoop (tempListing mc ms rm) repo).1 =
      [.copy "config.json" (.config mc),
       .copy "pytorch_model.bin" (.weights ms),
       .copy "README.md" (.readme rm)]
    ∧ lookupD (copyLoop (tempListing mc ms rm) repo).2 name =
        lookupD repo name := by
  have hred : copyLoop (tempListing mc ms rm) repo =
      ([.copy "config.json" (.config mc),
        .copy "pytorch_model.bin" (.weights ms),
        .copy "README.md" (.readme rm)],
       dictInsert (dictInsert (dictInsert repo "config.json" (.config mc))
         "pytorch_model.bin" (.weights ms)) "README.md" (.readme rm)) := by
    simp [copyLoop, tempListing]
  rw [hred]
  refine ⟨rfl, ?_⟩
  rw [lookupD_dictInsert_ne _ _ _ _ h3, lookupD_dictInsert_ne _ _ _ _ h2,
    lookupD_dictInsert_ne _ _ _ _ h1]

/-- Witness for C10 at concrete artifacts and a pre-existing
repository file. -/
theorem c10_copy_step_files_and_frame_witness :
    (copyLoop (tempListing fixedConfig (.dict [("w", .tensor [2])])
        ⟨2, [], "user/repo"⟩) [(".gitattributes", .raw "x")]).1 =
      [.copy "config.json" (.config fixedConfig),
       .copy "pytorch_model.bin" (.weights (.dict [("w", .tensor [2])])),
       .copy "README.md" (.readme ⟨2, [], "user/repo"⟩)]
    ∧ lookupD (copyLoop (tempListing fixedConfig
          (.dict [("w", .tensor [2])]) ⟨2, [], "user/repo"⟩)
          [(".gitattributes", .raw "x")]).2 ".gitattributes" =
        lookupD [(".gitattributes", FileContent.raw "x")] ".gitattributes" :=
  c10_copy_step_files_and_frame fixedConfig (.dict [("w", .tensor [2])])
    ⟨2, [], "user/repo"⟩ [(".gitattributes", .raw "x")] ".gitattributes"
    (by decide) (by decide) (by decide)

end UploadModel
